import Mathlib

/-!
Shallow embedding of the core utilities of the atlas-sdk repository:
pagination normalization (`src/utils/query.ts`), the TTL memory cache and
retrying HTTP client (`src/utils/http.ts`), the cache-key builder
(`src/utils/query.ts`), and the exponential-backoff request-executor
variant embedded after `src/errors/AtlasError.ts`.

Modelling conventions:
- JavaScript numbers are modelled as `Int` (every claim concerns integer
  inputs); `Date.now()` timestamps become explicit `now : Int` arguments.
- `undefined`/optional values are `Option`; JavaScript truthiness of a
  number (`x || d`, `!x`) is modelled by an explicit comparison with `0`,
  the only falsy integer.
- `Math.floor(a / b)` on integers is `Int.fdiv a b`, and `Math.ceil(a / b)`
  is `-Int.fdiv (-a) b`; both agree with the JavaScript expression whenever
  `b ≠ 0`, and the sources never divide by `0`: the normalized limit is
  never `0`, and the theorems about `enrichPaginationResponse` assume
  `1 ≤ limit`.
-/

/-- `PaginationOptions` (src/types/content.ts):
`{ limit?: number; page?: number; offset?: number }`. -/
structure PaginationOptions where
  limit : Option Int := none
  page : Option Int := none
  offset : Option Int := none
deriving DecidableEq

/-- The normalized record `{ limit, offset, page }` returned by
`processPaginationOptions`. -/
structure NormalizedPagination where
  limit : Int
  offset : Int
  page : Int
deriving DecidableEq

/-- `pageToOffset` (src/utils/query.ts, lines 25-28):
`if (!page || page < 1) return 0; return (page - 1) * limit;`.
For an integer `page`, `!page` holds exactly for `page = 0`. -/
def pageToOffset (page : Option Int) (limit : Int := 10) : Int :=
  match page with
  | none => 0
  | some p => if p = 0 ∨ p < 1 then 0 else (p - 1) * limit

/-- `offsetToPage` (src/utils/query.ts, lines 31-33):
`Math.floor(offset / limit) + 1`. -/
def offsetToPage (offset : Int) (limit : Int := 10) : Int :=
  Int.fdiv offset limit + 1

/-- `processPaginationOptions` (src/utils/query.ts, lines 36-57).
`options.limit || 10` coerces only absence and the falsy `0` to the
default; a negative `limit` is truthy in JavaScript and passes through. -/
def processPaginationOptions (options : PaginationOptions) : NormalizedPagination :=
  let limit :=
    match options.limit with
    | none => 10
    | some l => if l = 0 then 10 else l
  match options.page with
  | some p => { limit := limit, offset := pageToOffset (some p) limit, page := p }
  | none =>
    match options.offset with
    | some o => { limit := limit, offset := o, page := offsetToPage o limit }
    | none => { limit := limit, offset := 0, page := 1 }

/-- `Math.ceil(a / b)` for integer `a` and nonzero integer `b`. -/
def ceilDiv (a b : Int) : Int := -(Int.fdiv (-a) b)

/-- The pagination block of an `ApiResponse` (src/types/api.ts). The
fields `page`, `totalPages`, `hasMore`, `hasPrevious` default to dummy
values: `enrichPaginationResponse` reads only `total`, `limit`, `offset`
from the server's block and overwrites the other four. -/
structure PaginationMeta where
  total : Int
  limit : Int
  offset : Int
  page : Int := 0
  totalPages : Int := 0
  hasMore : Bool := false
  hasPrevious : Bool := false
deriving DecidableEq

/-- `ApiResponse<T>` (src/types/api.ts). -/
structure ApiResponse (α : Type) where
  data : α
  success : Bool := true
  error : Option String := none
  pagination : Option PaginationMeta := none
deriving DecidableEq

/-- `enrichPaginationResponse` (src/utils/query.ts, lines 60-81).
`requestedPage || offsetToPage(offset, limit)` falls back to the derived
page for an absent or `0` (falsy) requested page; `requestedLimit` is
accepted but unused by the source. -/
def enrichPaginationResponse {α : Type} (response : ApiResponse α)
    (requestedLimit : Int) (requestedPage : Option Int) : ApiResponse α :=
  match response.pagination with
  | none => response
  | some pg =>
    let currentPage :=
      match requestedPage with
      | none => offsetToPage pg.offset pg.limit
      | some p => if p = 0 then offsetToPage pg.offset pg.limit else p
    let totalPages := ceilDiv pg.total pg.limit
    { response with
      pagination := some { pg with
        page := currentPage,
        totalPages := totalPages,
        hasMore := decide (currentPage < totalPages),
        hasPrevious := decide (currentPage > 1) } }

/-- `CacheItem<T>` (src/utils/http.ts, lines 74-78). -/
structure CacheItem (α : Type) where
  data : α
  timestamp : Int
  expiresAt : Int
deriving DecidableEq

/-- `MemoryCache` (src/utils/http.ts, lines 80-115). The JavaScript `Map`
is modelled as an association list whose keys are kept unique by `set`
and `delete` (a `Map` never holds two entries for one key). -/
structure MemoryCache (α : Type) where
  entries : List (String × CacheItem α)
deriving DecidableEq

/-- A fresh `new MemoryCache()`. -/
def MemoryCache.empty (α : Type) : MemoryCache α := ⟨[]⟩

/-- `this.cache.get(key)` on the underlying `Map`. -/
def MemoryCache.lookup {α : Type} (c : MemoryCache α) (key : String) :
    Option (CacheItem α) :=
  (c.entries.find? (fun e => e.1 == key)).map Prod.snd

/-- `MemoryCache.delete` (src/utils/http.ts, lines 104-106):
`return this.cache.delete(key)` — removes the entry for `key` and reports
whether it existed. -/
def MemoryCache.deleteKey {α : Type} (c : MemoryCache α) (key : String) :
    Bool × MemoryCache α :=
  ((c.lookup key).isSome, ⟨c.entries.filter (fun e => !(e.1 == key))⟩)

/-- `MemoryCache.get` (src/utils/http.ts, lines 83-93): absent key gives
`null`; `Date.now() > item.expiresAt` evicts the entry and gives `null`;
otherwise the stored data is returned. The returned pair carries the
cache after the call (the eviction is a side effect in the source). -/
def MemoryCache.get {α : Type} (c : MemoryCache α) (key : String) (now : Int) :
    Option α × MemoryCache α :=
  match c.lookup key with
  | none => (none, c)
  | some item =>
    if now > item.expiresAt then (none, (c.deleteKey key).2)
    else (some item.data, c)

/-- `MemoryCache.set` (src/utils/http.ts, lines 95-102):
`expiresAt = Date.now() + ttlMinutes * 60 * 1000`; `Map.set` overwrites
any existing entry for `key`. -/
def MemoryCache.set {α : Type} (c : MemoryCache α) (key : String) (data : α)
    (ttlMinutes : Int) (now : Int) : MemoryCache α :=
  let expiresAt := now + ttlMinutes * 60 * 1000
  ⟨c.entries.filter (fun e => !(e.1 == key)) ++
    [(key, { data := data, timestamp := now, expiresAt := expiresAt })]⟩

/-- `MemoryCache.clear` (src/utils/http.ts, lines 108-110). -/
def MemoryCache.clear {α : Type} (_ : MemoryCache α) : MemoryCache α := ⟨[]⟩

/-- `MemoryCache.size` (src/utils/http.ts, lines 112-114). -/
def MemoryCache.size {α : Type} (c : MemoryCache α) : Nat :=
  c.entries.length

/-- JSON values as passed to `JSON.stringify` by `generateCacheKey`:
primitives, arrays and objects (an object is its fields in insertion
order, which is the order `JSON.stringify` serializes them in). -/
inductive Json where
  | null
  | bool (b : Bool)
  | num (n : Int)
  | str (s : String)
  | arr (items : List Json)
  | obj (fields : List (String × Json))

/-- `JSON.stringify` string escaping for the quote and backslash
characters (other escapes concern control characters, which the claims
do not exercise). -/
def jsonEscapeChar (c : Char) : String :=
  if c = '"' then "\\\"" else if c = '\\' then "\\\\" else String.singleton c

/-- Escape a string body for `JSON.stringify`. -/
def jsonEscape (s : String) : String :=
  String.join (s.toList.map jsonEscapeChar)

mutual

/-- `JSON.stringify` on the modelled JSON values: integers print as their
decimal literals, strings are quoted and escaped, arrays and objects
serialize their elements in order, comma-separated. -/
def jsonStringify : Json → String
  | .null => "null"
  | .bool true => "true"
  | .bool false => "false"
  | .num n => toString n
  | .str s => "\"" ++ jsonEscape s ++ "\""
  | .arr items => "[" ++ jsonStringifyItems items ++ "]"
  | .obj fields => "\x7b" ++ jsonStringifyFields fields ++ "\x7d"

/-- Comma-separated serialization of an array's items. -/
def jsonStringifyItems : List Json → String
  | [] => ""
  | [x] => jsonStringify x
  | x :: y :: xs => jsonStringify x ++ "," ++ jsonStringifyItems (y :: xs)

/-- Comma-separated serialization of an object's fields. -/
def jsonStringifyFields : List (String × Json) → String
  | [] => ""
  | [(k, v)] => "\"" ++ jsonEscape k ++ "\":" ++ jsonStringify v
  | (k, v) :: f :: fs =>
    "\"" ++ jsonEscape k ++ "\":" ++ jsonStringify v ++ "," ++
      jsonStringifyFields (f :: fs)

end

/-- `generateCacheKey` (src/utils/query.ts, lines 20-22): the template
string `prefix + ":" + JSON.stringify(params)` (the source names the
first parameter `prefix`). -/
def generateCacheKey (opName : String) (params : Json) : String :=
  opName ++ ":" ++ jsonStringify params

example : generateCacheKey "list" (.obj [("a", .num 1), ("b", .num 2)]) =
    "list:\x7b\"a\":1,\"b\":2\x7d" := by decide

/-- `HttpOptions` (src/utils/http.ts, lines 3-8). `retries` is the number
of extra attempts beyond the first; the claims take it nonnegative, so it
is a `Nat`. `timeout` bounds one attempt; a timeout abort surfaces as a
failed fetch (see `FetchOutcome`), so the value itself does not enter the
control flow modelled here. -/
structure HttpOptions where
  timeout : Int
  retries : Nat
  retryDelay : Int
  headers : List (String × String) := []

/-- What one `fetch` inside `HttpClient.request` produces, as seen by the
`try` block: either the promise rejects (network failure, or the
`AbortController` timeout firing), or a response arrives with an `ok`
flag, a status code and status text, and a parsed JSON body. -/
inductive FetchOutcome (α : Type) where
  | err (message : String)
  | resp (ok : Bool) (status : Int) (statusText : String) (body : α)

/-- The errors one attempt of `HttpClient.request` can throw: the rethrown
fetch/timeout rejection, or the `AtlasNetworkError` the client itself
throws on `!response.ok` (src/errors/AtlasError.ts, lines 20-25). -/
inductive HttpError where
  | fetchFailure (message : String)
  | atlasNetworkError (message : String)
deriving DecidableEq

/-- One iteration of the `try` block of `HttpClient.request`
(src/utils/http.ts, lines 38-60): a rejected fetch is the thrown error;
an arrived response with `!response.ok` throws
`new AtlasNetworkError("HTTP " + status + ": " + statusText)`; otherwise
the parsed body is returned. -/
def attemptOnce {α : Type} (fr : FetchOutcome α) : Except HttpError α :=
  match fr with
  | .err m => .error (.fetchFailure m)
  | .resp ok status statusText body =>
    if ok then .ok body
    else .error (.atlasNetworkError ("HTTP " ++ toString status ++ ": " ++ statusText))

/-- Observable behaviour of one `request` call: which attempt indices ran,
which backoff delays were slept between failed attempts, and the settled
outcome — `.ok v` for a resolved promise, `.error e` for a rejected one. -/
structure RequestTrace (α : Type) where
  attempts : List Nat
  delays : List Int
  result : Except HttpError α

/-- The retry loop `for (attempt = 0; attempt <= retries; attempt++)` of
`HttpClient.request` (src/utils/http.ts, lines 37-67), written as
structural recursion on `remaining = retries - attempt`, the number of
loop iterations still allowed after the current one; the loop guard
`attempt === retries` of line 62 is exactly `remaining = 0`. On failure
with `remaining = 0` the error is rethrown; otherwise the client sleeps
`this.options.retryDelay` (constant backoff) and retries. `f` gives the
outcome the environment hands each attempt. -/
def requestConstLoop {α : Type} (f : Nat → FetchOutcome α) (retryDelay : Int)
    (attempt : Nat) : (remaining : Nat) → RequestTrace α
  | 0 =>
    match attemptOnce (f attempt) with
    | .ok v => ⟨[attempt], [], .ok v⟩
    | .error e => ⟨[attempt], [], .error e⟩
  | remaining + 1 =>
    match attemptOnce (f attempt) with
    | .ok v => ⟨[attempt], [], .ok v⟩
    | .error _ =>
      let rest := requestConstLoop f retryDelay (attempt + 1) remaining
      ⟨attempt :: rest.attempts, retryDelay :: rest.delays, rest.result⟩

/-- `HttpClient.request` (src/utils/http.ts, lines 29-68): the retry loop
entered at `attempt = 0` with `retries` further iterations allowed. -/
def HttpClient.request {α : Type} (options : HttpOptions)
    (f : Nat → FetchOutcome α) : RequestTrace α :=
  requestConstLoop f options.retryDelay 0 options.retries

/-- The retry loop of the `HttpClient.request` variant embedded after
src/errors/AtlasError.ts (lines 77-116), identical to `requestConstLoop`
except for the exponential backoff
`this.options.retryDelay * Math.pow(2, attempt)` of its line 113. -/
def requestExpoLoop {α : Type} (f : Nat → FetchOutcome α) (retryDelay : Int)
    (attempt : Nat) : (remaining : Nat) → RequestTrace α
  | 0 =>
    match attemptOnce (f attempt) with
    | .ok v => ⟨[attempt], [], .ok v⟩
    | .error e => ⟨[attempt], [], .error e⟩
  | remaining + 1 =>
    match attemptOnce (f attempt) with
    | .ok v => ⟨[attempt], [], .ok v⟩
    | .error _ =>
      let rest := requestExpoLoop f retryDelay (attempt + 1) remaining
      ⟨attempt :: rest.attempts, retryDelay * 2 ^ attempt :: rest.delays,
        rest.result⟩

/-- `HttpClient.request` of the exponential-backoff variant
(src/errors/AtlasError.ts, lines 77-116), entered at `attempt = 0`. -/
def HttpClientExpo.request {α : Type} (options : HttpOptions)
    (f : Nat → FetchOutcome α) : RequestTrace α :=
  requestExpoLoop f options.retryDelay 0 options.retries

example :
    (HttpClient.request (α := Int) ⟨5000, 2, 100, []⟩ (fun _ => .err "boom")).attempts
        = [0, 1, 2] ∧
    (HttpClient.request (α := Int) ⟨5000, 2, 100, []⟩ (fun _ => .err "boom")).delays
        = [100, 100] ∧
    (HttpClient.request (α := Int) ⟨5000, 2, 100, []⟩ (fun _ => .err "boom")).result
        = .error (.fetchFailure "boom") := by
  refine ⟨rfl, rfl, rfl⟩

example :
    (HttpClientExpo.request (α := Int) ⟨5000, 2, 100, []⟩ (fun _ => .err "boom")).delays
        = [100, 200] := by
  rfl

example :
    (HttpClient.request (α := Int) ⟨5000, 2, 100, []⟩
        (fun i => if i = 1 then .resp true 200 "OK" 7 else .err "x")).result
        = .ok 7 := by
  rfl

example : processPaginationOptions { page := some 3, limit := some 20 } =
    { limit := 20, offset := 40, page := 3 } := by decide

example : processPaginationOptions { offset := some 40, limit := some 20 } =
    { limit := 20, offset := 40, page := 3 } := by decide

example : processPaginationOptions { limit := some (-5) } =
    { limit := -5, offset := 0, page := 1 } := by decide

example : processPaginationOptions { limit := some (-5), page := some 2 } =
    { limit := -5, offset := -5, page := 2 } := by decide

example : ceilDiv 95 20 = 5 := by decide

example : ceilDiv 0 10 = 0 := by decide

lemma find?_key_filter_ne {α : Type} (l : List (String × CacheItem α)) (key : String) :
    (l.filter (fun e => !(e.1 == key))).find? (fun e => e.1 == key) = none := by
  simp only [List.find?_eq_none, List.mem_filter]
  intro x hx
  simpa using hx.2

lemma MemoryCache.lookup_set {α : Type} (c : MemoryCache α) (key : String)
    (v : α) (ttl now : Int) :
    (c.set key v ttl now).lookup key =
      some { data := v, timestamp := now, expiresAt := now + ttl * 60 * 1000 } := by
  simp [MemoryCache.set, MemoryCache.lookup, List.find?_append, find?_key_filter_ne,
    List.find?]

lemma MemoryCache.lookup_deleteKey {α : Type} (c : MemoryCache α) (key : String) :
    ((c.deleteKey key).2).lookup key = none := by
  simp [MemoryCache.deleteKey, MemoryCache.lookup, find?_key_filter_ne]

lemma length_filter_ne_key_lt {α : Type} (l : List (String × CacheItem α))
    (key : String) (h : l.find? (fun e => e.1 == key) ≠ none) :
    (l.filter (fun e => !(e.1 == key))).length < l.length := by
  induction l with
  | nil => simp at h
  | cons x xs ih =>
    rw [List.find?_cons] at h
    cases hx : (x.1 == key) with
    | true =>
      rw [List.filter_cons_of_neg (by simp [hx])]
      exact Nat.lt_succ_of_le (List.length_filter_le _ _)
    | false =>
      rw [List.filter_cons_of_pos (by simp [hx])]
      have : xs.find? (fun e => e.1 == key) ≠ none := by
        rw [hx] at h
        simpa using h
      simpa using ih this

lemma MemoryCache.get_set_of_pos_ttl {α : Type} (c : MemoryCache α) (key : String)
    (v : α) (ttl now : Int) (h : 0 < ttl) :
    ((c.set key v ttl now).get key now).1 = some v := by
  simp only [MemoryCache.get, MemoryCache.lookup_set]
  rw [if_neg (by omega)]

lemma MemoryCache.get_live {α : Type} (c : MemoryCache α) (key : String)
    (now : Int) (item : CacheItem α) (hl : c.lookup key = some item)
    (hfresh : now ≤ item.expiresAt) :
    (c.get key now).1 = some item.data := by
  simp only [MemoryCache.get, hl]
  rw [if_neg (by omega)]

lemma MemoryCache.get_expired {α : Type} (c : MemoryCache α) (key : String)
    (now : Int) (item : CacheItem α) (hl : c.lookup key = some item)
    (hexp : item.expiresAt < now) :
    (c.get key now).1 = none ∧ ((c.get key now).2).lookup key = none ∧
      ((c.get key now).2).size < c.size := by
  have hfind : c.entries.find? (fun e => e.1 == key) ≠ none := by
    intro hnone
    rw [MemoryCache.lookup, hnone] at hl
    simp at hl
  simp only [MemoryCache.get, hl]
  rw [if_pos (by omega)]
  refine ⟨rfl, MemoryCache.lookup_deleteKey c key, ?_⟩
  simpa [MemoryCache.deleteKey, MemoryCache.size] using
    length_filter_ne_key_lt c.entries key hfind

lemma requestConstLoop_allFail {α : Type} (f : Nat → FetchOutcome α) (d : Int) :
    ∀ (remaining attempt : Nat),
      (∀ i, attempt ≤ i → i ≤ attempt + remaining → ∃ e, attemptOnce (f i) = .error e) →
      (requestConstLoop f d attempt remaining).attempts =
        List.range' attempt (remaining + 1) ∧
      (requestConstLoop f d attempt remaining).delays = List.replicate remaining d ∧
      ∀ e, attemptOnce (f (attempt + remaining)) = .error e →
        (requestConstLoop f d attempt remaining).result = .error e := by
  intro remaining
  induction remaining with
  | zero =>
    intro attempt h
    obtain ⟨e, he⟩ := h attempt (Nat.le_refl _) (Nat.le_refl _)
    refine ⟨?_, ?_, ?_⟩
    · simp [requestConstLoop, he, List.range'_succ]
    · simp [requestConstLoop, he]
    · intro e' he'
      rw [Nat.add_zero] at he'
      simp [requestConstLoop, he']
  | succ r ih =>
    intro attempt h
    obtain ⟨e, he⟩ := h attempt (Nat.le_refl _) (Nat.le_add_right _ _)
    have hrest := ih (attempt + 1) (fun i h1 h2 => h i (by omega) (by omega))
    refine ⟨?_, ?_, ?_⟩
    · simp only [requestConstLoop, he, List.range'_succ]
      exact congrArg (attempt :: ·) hrest.1
    · simp only [requestConstLoop, he, List.replicate]
      exact congrArg (d :: ·) hrest.2.1
    · intro e' he'
      simp only [requestConstLoop, he]
      exact hrest.2.2 e' (by rw [show attempt + 1 + r = attempt + (r + 1) by omega]; exact he')

lemma requestLoops_agree {α : Type} (f : Nat → FetchOutcome α) (d : Int) :
    ∀ (remaining attempt : Nat),
      (requestConstLoop f d attempt remaining).attempts =
        (requestExpoLoop f d attempt remaining).attempts ∧
      (requestConstLoop f d attempt remaining).result =
        (requestExpoLoop f d attempt remaining).result ∧
      (requestConstLoop f d attempt remaining).delays.length =
        (requestExpoLoop f d attempt remaining).delays.length := by
  intro remaining
  induction remaining with
  | zero =>
    intro attempt
    cases he : attemptOnce (f attempt) with
    | ok v => simp [requestConstLoop, requestExpoLoop, he]
    | error e => simp [requestConstLoop, requestExpoLoop, he]
  | succ r ih =>
    intro attempt
    cases he : attemptOnce (f attempt) with
    | ok v => simp [requestConstLoop, requestExpoLoop, he]
    | error e =>
      have hrest := ih (attempt + 1)
      simp only [requestConstLoop, requestExpoLoop, he, List.length_cons]
      exact ⟨congrArg (attempt :: ·) hrest.1, hrest.2.1,
        congrArg (· + 1) hrest.2.2⟩

lemma ceilDiv_bounds (t l : Int) (hl : 0 < l) :
    (ceilDiv t l - 1) * l < t ∧ t ≤ ceilDiv t l * l := by
  unfold ceilDiv
  rw [Int.fdiv_eq_ediv _ (Int.le_of_lt hl)]
  have h1 := Int.ediv_add_emod (-t) l
  have h2 := Int.emod_nonneg (-t) (by omega : l ≠ 0)
  have h3 := Int.emod_lt_of_pos (-t) hl
  constructor
  · nlinarith [h1, h2, h3]
  · nlinarith [h1, h2, h3]

/-- C1: with `retries = R ≥ 0`, if every attempt of the request executor
fails (rejected fetch — network error or timeout — or a non-success HTTP
status), `HttpClient.request` makes exactly `R + 1` attempts in total
(indices `0 .. R`) and the settled result is exactly the error of the
final attempt: no error is swallowed and no partial result is returned. -/
theorem httpClient_request_retry_exhaustion :
    ∀ (α : Type) (options : HttpOptions) (f : Nat → FetchOutcome α),
      (∀ i, i ≤ options.retries → ∃ e, attemptOnce (f i) = .error e) →
      (HttpClient.request options f).attempts.length = options.retries + 1 ∧
      (HttpClient.request options f).attempts = List.range (options.retries + 1) ∧
      ∀ e, attemptOnce (f options.retries) = .error e →
        (HttpClient.request options f).result = .error e := by
  intro α options f h
  have hall := requestConstLoop_allFail f options.retryDelay options.retries 0
    (fun i _ h2 => h i (by omega))
  unfold HttpClient.request
  refine ⟨?_, ?_, ?_⟩
  · rw [hall.1]
    exact List.length_range' _ _ _
  · rw [hall.1, List.range_eq_range']
  · intro e he
    exact hall.2.2 e (by simpa using he)

/-- Witness for C1: `retries = 2` with an executor whose every fetch
rejects; three attempts run and the final rejection is the result. -/
theorem httpClient_request_retry_exhaustion_witness :
    (HttpClient.request (α := Int) ⟨5000, 2, 100, []⟩
        (fun _ => .err "ECONNRESET")).attempts.length = 3 ∧
    (HttpClient.request (α := Int) ⟨5000, 2, 100, []⟩
        (fun _ => .err "ECONNRESET")).result =
      .error (.fetchFailure "ECONNRESET") := by
  have h := httpClient_request_retry_exhaustion Int ⟨5000, 2, 100, []⟩
    (fun _ => .err "ECONNRESET") (fun i _ => ⟨.fetchFailure "ECONNRESET", rfl⟩)
  exact ⟨h.1, h.2.2 _ rfl⟩

/-- C9: the constant-delay executor of src/utils/http.ts and the
exponential-delay variant embedded after src/errors/AtlasError.ts are
equivalent up to backoff timing: for every sequence of per-attempt
outcomes they run the same attempts, settle with the same result, and
sleep the same number of backoff delays (only the delay values differ). -/
theorem httpClient_variants_equivalent :
    ∀ (α : Type) (options : HttpOptions) (f : Nat → FetchOutcome α),
      (HttpClient.request options f).attempts =
        (HttpClientExpo.request options f).attempts ∧
      (HttpClient.request options f).result =
        (HttpClientExpo.request options f).result ∧
      (HttpClient.request options f).delays.length =
        (HttpClientExpo.request options f).delays.length := by
  intro α options f
  exact requestLoops_agree f options.retryDelay options.retries 0

/-- C2: `set(key, value, ttl)` with `ttl > 0` followed immediately by
`get(key)` returns `value`; a stored entry is returned exactly while
`now ≤ expiresAt`; once `now > expiresAt` the `get` reports absent,
evicts the entry (a later `lookup` misses), and `size()` no longer counts
it after that `get` call. -/
theorem memoryCache_roundtrip_and_expiry :
    (∀ (α : Type) (c : MemoryCache α) (key : String) (v : α) (ttl now : Int),
        0 < ttl → ((c.set key v ttl now).get key now).1 = some v) ∧
    (∀ (α : Type) (c : MemoryCache α) (key : String) (now : Int) (item : CacheItem α),
        c.lookup key = some item → now ≤ item.expiresAt →
          (c.get key now).1 = some item.data) ∧
    (∀ (α : Type) (c : MemoryCache α) (key : String) (now : Int) (item : CacheItem α),
        c.lookup key = some item → item.expiresAt < now →
          (c.get key now).1 = none ∧ ((c.get key now).2).lookup key = none ∧
            ((c.get key now).2).size < c.size) :=
  ⟨fun _ c key v ttl now h => MemoryCache.get_set_of_pos_ttl c key v ttl now h,
   fun _ c key now item hl hf => MemoryCache.get_live c key now item hl hf,
   fun _ c key now item hl he => MemoryCache.get_expired c key now item hl he⟩

/-- Witness for C2: a fresh set is read back at the same instant; a live
entry (`now ≤ expiresAt`) is returned; an expired entry is reported
absent, evicted, and no longer counted by `size`. -/
theorem memoryCache_roundtrip_and_expiry_witness :
    (((MemoryCache.empty Int).set "users" 5 1 0).get "users" 0).1 = some 5 ∧
    ((MemoryCache.mk (α := Int) [("k", ⟨7, 0, 10⟩)]).get "k" 10).1 = some 7 ∧
    (((MemoryCache.mk (α := Int) [("k", ⟨7, 0, 10⟩)]).get "k" 11).1 = none ∧
      (((MemoryCache.mk (α := Int) [("k", ⟨7, 0, 10⟩)]).get "k" 11).2).lookup "k" = none ∧
      (((MemoryCache.mk (α := Int) [("k", ⟨7, 0, 10⟩)]).get "k" 11).2).size <
        (MemoryCache.mk (α := Int) [("k", ⟨7, 0, 10⟩)]).size) :=
  ⟨memoryCache_roundtrip_and_expiry.1 Int (MemoryCache.empty Int) "users" 5 1 0
      (by decide),
   memoryCache_roundtrip_and_expiry.2.1 Int (MemoryCache.mk [("k", ⟨7, 0, 10⟩)])
      "k" 10 ⟨7, 0, 10⟩ (by decide) (by decide),
   memoryCache_roundtrip_and_expiry.2.2 Int (MemoryCache.mk [("k", ⟨7, 0, 10⟩)])
      "k" 11 ⟨7, 0, 10⟩ (by decide) (by decide)⟩

/-- C6 counterexample: `set` with `ttlMinutes = 0` at time `1000` gives
`expiresAt = 1000`, and since eviction needs the strict `now > expiresAt`,
a `get` at the very same instant still returns the value — the entry is
not "immediately expired" at the same instant, contradicting the claim. -/
theorem memoryCache_zero_ttl_same_instant_hit :
    (((MemoryCache.empty Int).set "k" 42 0 1000).get "k" 1000).1 = some 42 := by
  decide

/-- C6 amended: `set` with `ttlMinutes ≤ 0` yields an entry with
`expiresAt ≤ now`, so every `get` at a strictly later instant reports
absent; when `ttlMinutes < 0` a `get` at the same instant reports absent
as well. Only the exact set instant with `ttlMinutes = 0` still hits. -/
theorem memoryCache_nonpositive_ttl_noop :
    ∀ (α : Type) (c : MemoryCache α) (key : String) (v : α) (ttl now now' : Int),
      (ttl ≤ 0 → now < now' → ((c.set key v ttl now).get key now').1 = none) ∧
      (ttl < 0 → now ≤ now' → ((c.set key v ttl now).get key now').1 = none) := by
  intro α c key v ttl now now'
  constructor
  · intro h1 h2
    simp only [MemoryCache.get, MemoryCache.lookup_set]
    rw [if_pos (by omega)]
  · intro h1 h2
    simp only [MemoryCache.get, MemoryCache.lookup_set]
    rw [if_pos (by omega)]

/-- Witness for C6 amended: `ttl = 0` is absent one instant later;
`ttl = -1` is absent at the same instant. -/
theorem memoryCache_nonpositive_ttl_noop_witness :
    (((MemoryCache.empty Int).set "k" 42 0 1000).get "k" 1001).1 = none ∧
    (((MemoryCache.empty Int).set "k" 42 (-1) 1000).get "k" 1000).1 = none :=
  ⟨(memoryCache_nonpositive_ttl_noop Int (MemoryCache.empty Int) "k" 42 0 1000 1001).1
      (by decide) (by decide),
   (memoryCache_nonpositive_ttl_noop Int (MemoryCache.empty Int) "k" 42 (-1) 1000 1000).2
      (by decide) (by decide)⟩

/-- C8: `generateCacheKey` is deterministic — two parameter bags that
serialize identically yield the identical key string, and therefore a
cache `set` under the key derived from one bag is found by a later `get`
under the key derived from the other. -/
theorem generateCacheKey_deterministic :
    ∀ (opName : String) (p q : Json), jsonStringify p = jsonStringify q →
      generateCacheKey opName p = generateCacheKey opName q ∧
      ∀ (α : Type) (c : MemoryCache α) (v : α) (ttl now : Int), 0 < ttl →
        ((c.set (generateCacheKey opName p) v ttl now).get
            (generateCacheKey opName q) now).1 = some v := by
  intro opName p q h
  have hk : generateCacheKey opName p = generateCacheKey opName q := by
    unfold generateCacheKey
    rw [h]
  refine ⟨hk, fun α c v ttl now httl => ?_⟩
  rw [hk]
  exact MemoryCache.get_set_of_pos_ttl c _ v ttl now httl

/-- Witness for C8: the spec's `key("list", {a:1,b:2})` evaluated twice,
and the set-then-get round trip through the derived key. -/
theorem generateCacheKey_deterministic_witness :
    generateCacheKey "list" (.obj [("a", .num 1), ("b", .num 2)]) =
      generateCacheKey "list" (.obj [("a", .num 1), ("b", .num 2)]) ∧
    (((MemoryCache.empty Int).set
        (generateCacheKey "list" (.obj [("a", .num 1), ("b", .num 2)])) 99 5 0).get
        (generateCacheKey "list" (.obj [("a", .num 1), ("b", .num 2)])) 0).1 =
      some 99 := by
  have h := generateCacheKey_deterministic "list"
    (.obj [("a", .num 1), ("b", .num 2)]) (.obj [("a", .num 1), ("b", .num 2)]) rfl
  exact ⟨h.1, h.2 Int (MemoryCache.empty Int) 99 5 0 (by decide)⟩

lemma processPaginationOptions_limit_eq (options : PaginationOptions) :
    (processPaginationOptions options).limit =
      (match options.limit with
       | none => 10
       | some l => if l = 0 then 10 else l) := by
  rcases options with ⟨lim, pg, off⟩
  cases pg <;> cases off <;> rfl

lemma processPaginationOptions_limit_pos (options : PaginationOptions)
    (h : ∀ l, options.limit = some l → 0 ≤ l) :
    0 < (processPaginationOptions options).limit := by
  rw [processPaginationOptions_limit_eq]
  cases hl : options.limit with
  | none => decide
  | some l =>
    have h0 := h l hl
    show 0 < if l = 0 then 10 else l
    by_cases hz : l = 0
    · rw [if_pos hz]; decide
    · rw [if_neg hz]; omega

lemma pageToOffset_eq_max (p L : Int) (hL : 0 ≤ L) :
    pageToOffset (some p) L = max 0 ((p - 1) * L) := by
  simp only [pageToOffset]
  by_cases h : p = 0 ∨ p < 1
  · rw [if_pos h]
    have h1 : 0 ≤ (1 - p) * L := mul_nonneg (by omega) hL
    have h2 : (p - 1) * L ≤ 0 := by nlinarith
    exact (max_eq_left h2).symm
  · rw [if_neg h]
    have h1 : 0 ≤ (p - 1) * L := mul_nonneg (by omega) hL
    exact (max_eq_right h1).symm

/-- C5 counterexample: a negative `request.limit` is truthy in JavaScript,
so `options.limit || 10` does not coerce it — `normalize({limit: -5})`
returns `limit = -5`, which is not a positive integer, contradicting the
claim that `limit <= 0` is always coerced to the default `10`. -/
theorem processPaginationOptions_negative_limit_cex :
    (processPaginationOptions { limit := some (-5) }).limit = -5 ∧
    ¬ 0 < (processPaginationOptions { limit := some (-5) }).limit := by
  decide

/-- C5 amended: the normalized `limit` equals `request.limit` whenever
that is present and nonzero (negative values included, passed through
uncoerced), is `10` exactly when `request.limit` is absent or `0`, and is
therefore positive whenever `request.limit` is absent or nonnegative. -/
theorem processPaginationOptions_limit_normalization :
    ∀ (options : PaginationOptions),
      ((options.limit = none ∨ options.limit = some 0) →
        (processPaginationOptions options).limit = 10) ∧
      (∀ l, options.limit = some l → l ≠ 0 →
        (processPaginationOptions options).limit = l) ∧
      ((∀ l, options.limit = some l → 0 ≤ l) →
        0 < (processPaginationOptions options).limit) := by
  intro options
  refine ⟨?_, ?_, processPaginationOptions_limit_pos options⟩
  · rintro (h | h) <;> rw [processPaginationOptions_limit_eq, h] <;> decide
  · intro l h hne
    rw [processPaginationOptions_limit_eq, h]
    simp [hne]

/-- Witness for C5 amended: `limit = 0` is coerced to `10`; `limit = 7`
passes through and is positive. -/
theorem processPaginationOptions_limit_normalization_witness :
    (processPaginationOptions { limit := some 0 }).limit = 10 ∧
    (processPaginationOptions { limit := some 7 }).limit = 7 ∧
    0 < (processPaginationOptions { limit := some 7 }).limit :=
  ⟨(processPaginationOptions_limit_normalization { limit := some 0 }).1 (Or.inr rfl),
   (processPaginationOptions_limit_normalization { limit := some 7 }).2.1 7 rfl
     (by decide),
   (processPaginationOptions_limit_normalization { limit := some 7 }).2.2
     (fun l h => by injection h with h2; omega)⟩

/-- C3 counterexample: with `{page: 2, limit: -5}` the negative limit
passes through, the code computes `offset = (2-1) * (-5) = -5`, but the
claimed formula `max(0, (page-1) * limit)` gives `0`. -/
theorem processPaginationOptions_negative_limit_offset_cex :
    (processPaginationOptions { limit := some (-5), page := some 2 }).offset = -5 ∧
    max 0 ((2 - 1) *
        (processPaginationOptions { limit := some (-5), page := some 2 }).limit) = 0 ∧
    (processPaginationOptions { limit := some (-5), page := some 2 }).offset ≠
      max 0 ((2 - 1) *
        (processPaginationOptions { limit := some (-5), page := some 2 }).limit) := by
  decide

/-- C3 amended: provided `request.limit` is not negative (so the
normalized limit is positive), `processPaginationOptions` returns: when
`request.page` is set, `offset = max(0, (page-1) * limit)` with `page`
passed through (page takes precedence, the offset branch being
unreachable); else when `request.offset` is set, `offset` passed through
and `page = floor(offset/limit) + 1`; else `offset = 0`, `page = 1`. -/
theorem processPaginationOptions_branches :
    ∀ (options : PaginationOptions),
      (∀ l, options.limit = some l → 0 ≤ l) →
      (∀ p, options.page = some p →
          (processPaginationOptions options).offset =
            max 0 ((p - 1) * (processPaginationOptions options).limit) ∧
          (processPaginationOptions options).page = p) ∧
      (options.page = none → ∀ o, options.offset = some o →
          (processPaginationOptions options).offset = o ∧
          (processPaginationOptions options).page =
            Int.fdiv o (processPaginationOptions options).limit + 1) ∧
      (options.page = none → options.offset = none →
          (processPaginationOptions options).offset = 0 ∧
          (processPaginationOptions options).page = 1) := by
  intro options hnn
  have hpos := processPaginationOptions_limit_pos options hnn
  rcases options with ⟨lim, pg, off⟩
  refine ⟨?_, ?_, ?_⟩
  · intro p hp
    cases pg with
    | none => exact Option.noConfusion hp
    | some p0 =>
      obtain rfl : p0 = p := Option.some.inj hp
      exact ⟨pageToOffset_eq_max p0 _ (Int.le_of_lt hpos), rfl⟩
  · intro hpg o ho
    cases pg with
    | some p0 => exact Option.noConfusion hpg
    | none =>
      cases off with
      | none => exact Option.noConfusion ho
      | some o0 =>
        obtain rfl : o0 = o := Option.some.inj ho
        exact ⟨rfl, rfl⟩
  · intro hpg hoff
    cases pg with
    | some p0 => exact Option.noConfusion hpg
    | none =>
      cases off with
      | some o0 => exact Option.noConfusion hoff
      | none => exact ⟨rfl, rfl⟩

/-- Witness for C3 amended: the three branches each evaluated at a
concrete request with `limit = 20`. -/
theorem processPaginationOptions_branches_witness :
    ((processPaginationOptions { limit := some 20, page := some 3 }).offset =
        max 0 ((3 - 1) *
          (processPaginationOptions { limit := some 20, page := some 3 }).limit) ∧
      (processPaginationOptions { limit := some 20, page := some 3 }).page = 3) ∧
    ((processPaginationOptions { limit := some 20, offset := some 45 }).offset = 45 ∧
      (processPaginationOptions { limit := some 20, offset := some 45 }).page =
        Int.fdiv 45
          (processPaginationOptions { limit := some 20, offset := some 45 }).limit + 1) ∧
    ((processPaginationOptions { limit := some 20 }).offset = 0 ∧
      (processPaginationOptions { limit := some 20 }).page = 1) :=
  ⟨(processPaginationOptions_branches { limit := some 20, page := some 3 }
      (fun l h => by injection h with h2; omega)).1 3 rfl,
   (processPaginationOptions_branches { limit := some 20, offset := some 45 }
      (fun l h => by injection h with h2; omega)).2.1 rfl 45 rfl,
   (processPaginationOptions_branches { limit := some 20 }
      (fun l h => by injection h with h2; omega)).2.2 rfl rfl⟩

/-- C7: page-based and offset-based pagination round-trip — for every
`limit ≥ 1` and `page ≥ 1`, `offsetToPage (pageToOffset page limit) limit
= page`; concretely both `normalize({page:3, limit:20})` and
`normalize({offset:40, limit:20})` yield `{limit:20, offset:40, page:3}`. -/
theorem pagination_page_offset_roundtrip :
    ∀ (limit page : Int), 1 ≤ limit → 1 ≤ page →
      offsetToPage (pageToOffset (some page) limit) limit = page ∧
      processPaginationOptions { page := some 3, limit := some 20 } =
        { limit := 20, offset := 40, page := 3 } ∧
      processPaginationOptions { offset := some 40, limit := some 20 } =
        { limit := 20, offset := 40, page := 3 } := by
  intro limit page hl hp
  refine ⟨?_, by decide, by decide⟩
  simp only [pageToOffset, offsetToPage]
  rw [if_neg (by omega)]
  rw [Int.fdiv_eq_ediv _ (by omega : (0:Int) ≤ limit)]
  rw [Int.mul_ediv_cancel _ (by omega : limit ≠ 0)]
  omega

/-- Witness for C7 at `limit = 20`, `page = 3`. -/
theorem pagination_page_offset_roundtrip_witness :
    offsetToPage (pageToOffset (some 3) 20) 20 = 3 ∧
    processPaginationOptions { page := some 3, limit := some 20 } =
      { limit := 20, offset := 40, page := 3 } ∧
    processPaginationOptions { offset := some 40, limit := some 20 } =
      { limit := 20, offset := 40, page := 3 } :=
  pagination_page_offset_roundtrip 20 3 (by decide) (by decide)

/-- C10: when `request.page` is provided but `< 1` (zero or negative),
the computed offset is coerced to `0` while the caller's page value is
returned unchanged, so the returned `page` field can be `0` or negative
rather than 1-indexed. -/
theorem processPaginationOptions_low_page_passthrough :
    ∀ (options : PaginationOptions) (p : Int), options.page = some p → p < 1 →
      (processPaginationOptions options).offset = 0 ∧
      (processPaginationOptions options).page = p := by
  rintro ⟨lim, pg, off⟩ p hp hlt
  cases pg with
  | none => exact Option.noConfusion hp
  | some p0 =>
    obtain rfl : p0 = p := Option.some.inj hp
    constructor
    · show pageToOffset (some p0) _ = 0
      simp only [pageToOffset]
      rw [if_pos (Or.inr hlt)]
    · rfl

/-- Witness for C10 at `page = -3`: offset is `0`, the returned page is
the non-1-indexed `-3`. -/
theorem processPaginationOptions_low_page_passthrough_witness :
    (processPaginationOptions { page := some (-3) }).offset = 0 ∧
    (processPaginationOptions { page := some (-3) }).page = -3 :=
  processPaginationOptions_low_page_passthrough { page := some (-3) } (-3) rfl
    (by decide)

/-- C4: for a response carrying a pagination block `{total, limit,
offset}` with `limit ≥ 1`, `enrichPaginationResponse` keeps the block's
`total`/`limit`/`offset`, computes `totalPages = ceil(total/limit)` (the
unique integer with `(totalPages-1)*limit < total ≤ totalPages*limit`),
`hasMore = page < totalPages`, `hasPrevious = page > 1`, with `page`
preferring the caller's requested page (any nonzero given value) and
otherwise derived from the offset; in particular the spec's two vectors:
`enrich({pagination:{total:95, limit:20, offset:40}}, 20, 3)` yields
`totalPages = 5, hasMore = true, hasPrevious = true`, and `total = 0`
with `limit = 10`, `page = 1` yields `totalPages = 0, hasMore = false,
hasPrevious = false`. -/
theorem enrichPaginationResponse_spec :
    (∀ (α : Type) (response : ApiResponse α) (pg : PaginationMeta)
        (requestedLimit : Int) (requestedPage : Option Int),
        response.pagination = some pg → 1 ≤ pg.limit →
        ∃ pg',
          (enrichPaginationResponse response requestedLimit requestedPage).pagination
              = some pg' ∧
          pg'.total = pg.total ∧ pg'.limit = pg.limit ∧ pg'.offset = pg.offset ∧
          pg'.totalPages = ceilDiv pg.total pg.limit ∧
          (pg'.totalPages - 1) * pg.limit < pg.total ∧
          pg.total ≤ pg'.totalPages * pg.limit ∧
          pg'.hasMore = decide (pg'.page < pg'.totalPages) ∧
          pg'.hasPrevious = decide (1 < pg'.page) ∧
          (requestedPage = none → pg'.page = offsetToPage pg.offset pg.limit) ∧
          (∀ p, requestedPage = some p →
            pg'.page = if p = 0 then offsetToPage pg.offset pg.limit else p)) ∧
    (enrichPaginationResponse (α := Int)
        { data := 0, pagination := some { total := 95, limit := 20, offset := 40 } }
        20 (some 3)).pagination =
      some { total := 95, limit := 20, offset := 40, page := 3, totalPages := 5,
             hasMore := true, hasPrevious := true } ∧
    (enrichPaginationResponse (α := Int)
        { data := 0, pagination := some { total := 0, limit := 10, offset := 0 } }
        10 (some 1)).pagination =
      some { total := 0, limit := 10, offset := 0, page := 1, totalPages := 0,
             hasMore := false, hasPrevious := false } := by
  refine ⟨?_, by decide, by decide⟩
  intro α response pg requestedLimit requestedPage hpag hlim
  have hb := ceilDiv_bounds pg.total pg.limit (by omega)
  simp only [enrichPaginationResponse, hpag]
  refine ⟨_, rfl, rfl, rfl, rfl, rfl, hb.1, hb.2, rfl, rfl, ?_, ?_⟩
  · intro h
    rw [h]
  · intro p h
    rw [h]

/-- Witness for C4 at the spec's vector `{total:95, limit:20, offset:40}`
with `requestedLimit = 20`, `requestedPage = 3`. -/
theorem enrichPaginationResponse_spec_witness :
    ∃ pg', (enrichPaginationResponse (α := Int)
        { data := 0, pagination := some { total := 95, limit := 20, offset := 40 } }
        20 (some 3)).pagination = some pg' ∧
      pg'.totalPages = 5 ∧ pg'.page = 3 ∧ pg'.hasMore = true ∧
      pg'.hasPrevious = true := by
  obtain ⟨pg', h1, _, _, _, h5, _, _, h8, h9, _, h11⟩ :=
    enrichPaginationResponse_spec.1 Int
      { data := 0, pagination := some { total := 95, limit := 20, offset := 40 } }
      { total := 95, limit := 20, offset := 40 } 20 (some 3) rfl (by decide)
  have htp : pg'.totalPages = 5 := by rw [h5]; decide
  have hpage : pg'.page = 3 := by
    have := h11 3 rfl
    simpa using this
  refine ⟨pg', h1, htp, hpage, ?_, ?_⟩
  · rw [h8, hpage, htp]
    decide
  · rw [h9, hpage]
    decide
